import Mathlib

/-!
Verification of the camera-coverage checker (enhanced version,
`checkCameraCoverage` and its helpers).

The program decides whether a set of axis-aligned "hardware camera"
rectangles in (distance × light-level) space covers a target rectangle,
by coordinate compression: collect all relevant boundary values per axis,
scan every induced grid cell, and test single-camera containment per cell.

Modelling choices:
* JavaScript numbers are modelled by `JsNum`: either a finite rational or
  one of the non-finite values `nan`, `posInf`, `negInf`.  Validation
  (which performs the `Number.isFinite` checks) operates on `JsNum`; once
  validation has succeeded every value is finite and the core geometry is
  carried out on the rationals (`JsNum.toQ`), which agrees with IEEE
  comparison on finite values.
* Thrown `Error` values are modelled by the `ValidationError` inductive,
  each constructor corresponding to one `throw` site reachable for
  well-typed inputs; the `message` strings of the result are modelled by
  the `Message` inductive carrying the same data the template strings
  interpolate.
* The JS `Set` followed by a numeric ascending sort in `collectBoundaries`
  is modelled by deduplication followed by `List.insertionSort (· ≤ ·)`:
  both denote the ascending list of the distinct collected values.
-/

/-- A JavaScript number: a finite rational or one of the non-finite values. -/
inductive JsNum where
  | nan : JsNum
  | posInf : JsNum
  | negInf : JsNum
  | fin : ℚ → JsNum
deriving DecidableEq

/-- `Number.isFinite`. -/
def JsNum.isFinite : JsNum → Bool
  | .fin _ => true
  | _ => false

/-- The rational value of a finite `JsNum` (junk value `0` on non-finite
inputs, which are rejected by validation before any arithmetic use). -/
def JsNum.toQ : JsNum → ℚ
  | .fin q => q
  | _ => 0

/-- IEEE `<` on JavaScript numbers: any comparison with `NaN` is false. -/
def jsLt : JsNum → JsNum → Bool
  | .nan, _ => false
  | _, .nan => false
  | .posInf, _ => false
  | .negInf, .negInf => false
  | .negInf, _ => true
  | .fin _, .posInf => true
  | .fin _, .negInf => false
  | .fin a, .fin b => decide (a < b)

/-- IEEE `>` on JavaScript numbers. -/
def jsGt (a b : JsNum) : Bool := jsLt b a

/-- `Range`: a `{min, max}` pair as supplied by the caller (raw JS numbers). -/
structure Range where
  min : JsNum
  max : JsNum
deriving DecidableEq

/-- `SoftwareCameraSpec`: the target rectangle to cover. -/
structure SoftwareCameraSpec where
  distanceRange : Range
  lightRange : Range
deriving DecidableEq

/-- `HardwareCamera`: a candidate covering rectangle with its identifier. -/
structure HardwareCamera where
  id : String
  distanceRange : Range
  lightRange : Range
deriving DecidableEq

/-- `UncoveredRegion`: a sub-rectangle reported as uncovered. -/
structure UncoveredRegion where
  distanceRange : Range
  lightRange : Range
deriving DecidableEq

/-- A range whose two endpoints are (already validated to be) finite. -/
structure QRange where
  min : ℚ
  max : ℚ
deriving DecidableEq

/-- A target rectangle with finite coordinates. -/
structure QSpec where
  distanceRange : QRange
  lightRange : QRange
deriving DecidableEq

/-- A camera rectangle with finite coordinates (the identifier plays no
role in the geometry and is dropped by the conversion). -/
structure QCam where
  distanceRange : QRange
  lightRange : QRange
deriving DecidableEq

/-- A grid cell recorded by the scan, with finite coordinates. -/
structure QRegion where
  distanceRange : QRange
  lightRange : QRange
deriving DecidableEq

def Range.toQ (r : Range) : QRange := ⟨r.min.toQ, r.max.toQ⟩

def SoftwareCameraSpec.toQ (s : SoftwareCameraSpec) : QSpec :=
  ⟨s.distanceRange.toQ, s.lightRange.toQ⟩

def HardwareCamera.toQ (c : HardwareCamera) : QCam :=
  ⟨c.distanceRange.toQ, c.lightRange.toQ⟩

def QRegion.toJs (r : QRegion) : UncoveredRegion :=
  ⟨⟨.fin r.distanceRange.min, .fin r.distanceRange.max⟩,
   ⟨.fin r.lightRange.min, .fin r.lightRange.max⟩⟩

/-- `CoverageStatistics` (the `gridCellsChecked` and `coveragePercentage`
fields are computed with JS arithmetic on integers, modelled in `ℤ`). -/
structure CoverageStatistics where
  totalCameras : Nat
  distanceBoundaries : Nat
  lightBoundaries : Nat
  gridCellsChecked : Int
  uncoveredCells : Nat
  coveragePercentage : Int
deriving DecidableEq

/-- One constructor per `throw new Error(...)` site of the validators that
is reachable for well-typed inputs, carrying the interpolated data. -/
inductive ValidationError where
  | nonFiniteRange (name : String)
  | minGreaterThanMax (name : String) (mn mx : JsNum)
  | invalidId (index : Nat)
  | duplicateIdsFound (dups : List String)
deriving DecidableEq

/-- The `message` string of a `CoverageResult`, modelled structurally:
one constructor per template string, carrying the interpolated data. -/
inductive Message where
  | validationFailure (e : ValidationError)
  | noHardwareCameras
  | coverageComplete (cameraCount : Nat)
  | coverageIncomplete (uncoveredCount : Nat) (pct : Int)
deriving DecidableEq

/-- `CoverageResult`; the two optional fields are `undefined` (`none`)
when the source object literal omits them. -/
structure CoverageResult where
  isSufficient : Bool
  message : Message
  uncoveredRegions : Option (List UncoveredRegion)
  statistics : Option CoverageStatistics
deriving DecidableEq

/-- The `name` argument of `validateRange` for the two target ranges and
the template string for a camera's distance range. -/
def cameraDistName (cid : String) : String :=
  "Camera \"" ++ cid ++ "\" distance range"

/-- The template string for a camera's light range. -/
def cameraLightName (cid : String) : String :=
  "Camera \"" ++ cid ++ "\" light range"

/-- `validateRange`: the null / typeof checks cannot fire for well-typed
inputs; the finiteness and ordering checks are modelled in order. -/
def validateRange (range : Range) (name : String) : Except ValidationError Unit :=
  if !range.min.isFinite || !range.max.isFinite then
    .error (.nonFiniteRange name)
  else if jsGt range.min range.max then
    .error (.minGreaterThanMax name range.min range.max)
  else
    .ok ()

/-- `validateSoftwareCameraSpec`. -/
def validateSoftwareCameraSpec (spec : SoftwareCameraSpec) : Except ValidationError Unit := do
  validateRange spec.distanceRange "Distance range"
  validateRange spec.lightRange "Light range"

/-- `validateHardwareCamera`: an id is "invalid or missing" for a
well-typed input exactly when it is the empty string (falsy). -/
def validateHardwareCamera (camera : HardwareCamera) (index : Nat) :
    Except ValidationError Unit := do
  if camera.id = "" then
    throw (.invalidId index)
  validateRange camera.distanceRange (cameraDistName camera.id)
  validateRange camera.lightRange (cameraLightName camera.id)

/-- The indexed `forEach` over the camera list. -/
def validateEachCamera : List HardwareCamera → Nat → Except ValidationError Unit
  | [], _ => .ok ()
  | c :: rest, index => do
    validateHardwareCamera c index
    validateEachCamera rest (index + 1)

/-- `ids.indexOf(id)`: index of the first occurrence. -/
def jsIndexOf (ids : List String) (x : String) : Nat :=
  ids.findIdx (· = x)

/-- `ids.filter((id, index) => ids.indexOf(id) !== index)`: every
occurrence of an id after its first one. -/
def findDuplicateIds (ids : List String) : List String :=
  ((ids.enum).filter fun p => jsIndexOf ids p.2 ≠ p.1).map Prod.snd

/-- `validateHardwareCameras`: per-camera validation in order, then the
duplicate-id check (`Set` size versus array length). -/
def validateHardwareCameras (cameras : List HardwareCamera) :
    Except ValidationError Unit := do
  validateEachCamera cameras 0
  let ids := cameras.map (·.id)
  if ids.dedup.length ≠ ids.length then
    throw (.duplicateIdsFound (findDuplicateIds ids))

/-- The `try { ... }` block at the top of `checkCameraCoverage`. -/
def validateInputs (softwareSpec : SoftwareCameraSpec)
    (hardwareCameras : List HardwareCamera) : Except ValidationError Unit := do
  validateSoftwareCameraSpec softwareSpec
  validateHardwareCameras hardwareCameras

/-- `cameraCoversPoint` (on validated, hence finite, values). -/
def cameraCoversPoint (camera : QCam) (distance lightLevel : ℚ) : Bool :=
  decide (distance ≥ camera.distanceRange.min) &&
  decide (distance ≤ camera.distanceRange.max) &&
  decide (lightLevel ≥ camera.lightRange.min) &&
  decide (lightLevel ≤ camera.lightRange.max)

/-- `cameraCoversRegion`. -/
def cameraCoversRegion (camera : QCam) (distMin distMax lightMin lightMax : ℚ) : Bool :=
  decide (camera.distanceRange.min ≤ distMin) &&
  decide (camera.distanceRange.max ≥ distMax) &&
  decide (camera.lightRange.min ≤ lightMin) &&
  decide (camera.lightRange.max ≥ lightMax)

/-- `anyCoversRegion`. -/
def anyCoversRegion (cameras : List QCam) (distMin distMax lightMin lightMax : ℚ) : Bool :=
  cameras.any fun camera => cameraCoversRegion camera distMin distMax lightMin lightMax

/-- The values inserted into the `Set` by `collectBoundaries`'s loop, in
insertion order: the target's endpoints, then every camera endpoint lying
within the target range. -/
def boundaryList (target : QRange) (cameraRanges : List QRange) : List ℚ :=
  target.min :: target.max ::
    cameraRanges.flatMap fun range =>
      (if range.min ≥ target.min ∧ range.min ≤ target.max then [range.min] else []) ++
      (if range.max ≥ target.min ∧ range.max ≤ target.max then [range.max] else [])

/-- `collectBoundaries`: the `Set` removes duplicates and
`Array.from(set).sort((a, b) => a - b)` sorts ascending, so the result is
the ascending list of the distinct collected values. -/
def collectBoundaries (target : QRange) (cameraRanges : List QRange) : List ℚ :=
  List.insertionSort (· ≤ ·) (boundaryList target cameraRanges).dedup

/-- The `isWithinTarget` test of the grid scan. -/
def isWithinTarget (spec : QSpec) (distMin distMax lightMin lightMax : ℚ) : Bool :=
  decide (distMin ≥ spec.distanceRange.min) &&
  decide (distMax ≤ spec.distanceRange.max) &&
  decide (lightMin ≥ spec.lightRange.min) &&
  decide (lightMax ≤ spec.lightRange.max)

/-- The double loop of `checkCameraCoverage`: every cell of the grid, in
row-major order, that is within the target and covered by no camera. -/
def scanUncovered (spec : QSpec) (cameras : List QCam)
    (distanceBoundaries lightBoundaries : List ℚ) : List QRegion :=
  (List.range (distanceBoundaries.length - 1)).flatMap fun i =>
    (List.range (lightBoundaries.length - 1)).flatMap fun j =>
      let distMin := distanceBoundaries.getD i 0
      let distMax := distanceBoundaries.getD (i + 1) 0
      let lightMin := lightBoundaries.getD j 0
      let lightMax := lightBoundaries.getD (j + 1) 0
      if isWithinTarget spec distMin distMax lightMin lightMax then
        if anyCoversRegion cameras distMin distMax lightMin lightMax then []
        else [⟨⟨distMin, distMax⟩, ⟨lightMin, lightMax⟩⟩]
      else []

/-- `calculateStatistics`: `Math.round` rounds half towards positive
infinity, which is Mathlib's `round` (`round x = ⌊x + 1/2⌋`). -/
def calculateStatistics (totalCameras distBoundaries lightBoundaries uncoveredCells : Nat) :
    CoverageStatistics :=
  let totalCells : Int := max 0 (((distBoundaries : Int) - 1) * ((lightBoundaries : Int) - 1))
  let coveredCells : Int := totalCells - (uncoveredCells : Int)
  let coveragePercentage : Int :=
    if 0 < totalCells then round ((coveredCells : ℚ) / (totalCells : ℚ) * 100) else 0
  { totalCameras := totalCameras
    distanceBoundaries := distBoundaries
    lightBoundaries := lightBoundaries
    gridCellsChecked := totalCells
    uncoveredCells := uncoveredCells
    coveragePercentage := coveragePercentage }

/-- The body of `checkCameraCoverage` after validation has succeeded and
the camera list is known to be non-empty: boundary collection, grid scan,
statistics, and the final result branch. -/
def gridScanResult (softwareSpec : SoftwareCameraSpec)
    (hardwareCameras : List HardwareCamera) : CoverageResult :=
  let spec := softwareSpec.toQ
  let qcams := hardwareCameras.map HardwareCamera.toQ
  let distanceBoundaries := collectBoundaries spec.distanceRange (qcams.map QCam.distanceRange)
  let lightBoundaries := collectBoundaries spec.lightRange (qcams.map QCam.lightRange)
  let uncovered := scanUncovered spec qcams distanceBoundaries lightBoundaries
  let statistics := calculateStatistics hardwareCameras.length
    distanceBoundaries.length lightBoundaries.length uncovered.length
  if uncovered.length = 0 then
    { isSufficient := true
      message := .coverageComplete hardwareCameras.length
      uncoveredRegions := none
      statistics := some statistics }
  else
    { isSufficient := false
      message := .coverageIncomplete uncovered.length statistics.coveragePercentage
      uncoveredRegions := some (uncovered.map QRegion.toJs)
      statistics := some statistics }

/-- `checkCameraCoverage` (enhanced version): validation with its `catch`
converted to a result, the empty-camera-list early return, then the grid
scan. -/
def checkCameraCoverage (softwareSpec : SoftwareCameraSpec)
    (hardwareCameras : List HardwareCamera) : CoverageResult :=
  match validateInputs softwareSpec hardwareCameras with
  | .error e =>
      { isSufficient := false
        message := .validationFailure e
        uncoveredRegions := some [⟨softwareSpec.distanceRange, softwareSpec.lightRange⟩]
        statistics := none }
  | .ok _ =>
      if hardwareCameras.length = 0 then
        { isSufficient := false
          message := .noHardwareCameras
          uncoveredRegions := some [⟨softwareSpec.distanceRange, softwareSpec.lightRange⟩]
          statistics := some (calculateStatistics 0 2 2 1) }
      else
        gridScanResult softwareSpec hardwareCameras

/-! ## Well-formedness predicates -/

/-- A range satisfies the documented invariant: finite endpoints, `min ≤ max`
(equivalently, `validateRange` accepts it). -/
def rangeOk (r : Range) : Bool :=
  r.min.isFinite && r.max.isFinite && !(jsGt r.min r.max)

/-- A well-formed target: both of its ranges are well-formed. -/
abbrev ValidSpec (spec : SoftwareCameraSpec) : Prop :=
  rangeOk spec.distanceRange = true ∧ rangeOk spec.lightRange = true

/-- An individually well-formed camera: non-empty id and well-formed ranges. -/
abbrev ValidCamera (c : HardwareCamera) : Prop :=
  c.id ≠ "" ∧ rangeOk c.distanceRange = true ∧ rangeOk c.lightRange = true

/-- A well-formed camera list: each camera well-formed and ids pairwise distinct. -/
abbrev ValidCameraList (cams : List HardwareCamera) : Prop :=
  (∀ c ∈ cams, ValidCamera c) ∧ (cams.map HardwareCamera.id).Nodup

/-- The range name reported by a validation error, when it is a range error. -/
def ValidationError.rangeName : ValidationError → Option String
  | .nonFiniteRange n => some n
  | .minGreaterThanMax n _ _ => some n
  | _ => none

/-- Pointwise coverage: every point of the target rectangle lies in at
least one camera's rectangle. -/
def QCoversTarget (spec : QSpec) (cams : List QCam) : Prop :=
  ∀ d l : ℚ, spec.distanceRange.min ≤ d → d ≤ spec.distanceRange.max →
    spec.lightRange.min ≤ l → l ≤ spec.lightRange.max →
    ∃ c ∈ cams, cameraCoversPoint c d l = true

/-- The distance-axis boundary list used by `gridScanResult`. -/
def distBoundariesOf (spec : SoftwareCameraSpec) (cams : List HardwareCamera) : List ℚ :=
  collectBoundaries spec.toQ.distanceRange
    ((cams.map HardwareCamera.toQ).map QCam.distanceRange)

/-- The light-axis boundary list used by `gridScanResult`. -/
def lightBoundariesOf (spec : SoftwareCameraSpec) (cams : List HardwareCamera) : List ℚ :=
  collectBoundaries spec.toQ.lightRange
    ((cams.map HardwareCamera.toQ).map QCam.lightRange)

/-- The uncovered-cell list computed by `gridScanResult`. -/
def scanOf (spec : SoftwareCameraSpec) (cams : List HardwareCamera) : List QRegion :=
  scanUncovered spec.toQ (cams.map HardwareCamera.toQ)
    (distBoundariesOf spec cams) (lightBoundariesOf spec cams)

/-- The statistics record computed by `gridScanResult`. -/
def statsOf (spec : SoftwareCameraSpec) (cams : List HardwareCamera) : CoverageStatistics :=
  calculateStatistics cams.length (distBoundariesOf spec cams).length
    (lightBoundariesOf spec cams).length (scanOf spec cams).length

/-- Pointwise coverage of a target by a camera list (raw-input level):
every point of the target rectangle lies in at least one camera's
rectangle. -/
def CoversTarget (spec : SoftwareCameraSpec) (cams : List HardwareCamera) : Prop :=
  ∀ d l : ℚ,
    spec.toQ.distanceRange.min ≤ d → d ≤ spec.toQ.distanceRange.max →
    spec.toQ.lightRange.min ≤ l → l ≤ spec.toQ.lightRange.max →
    ∃ c ∈ cams, cameraCoversPoint c.toQ d l = true

/-- The named ranges validated by `checkCameraCoverage`, in validation
order: the two target ranges, then each camera's two ranges. -/
def rangeChecklist (spec : SoftwareCameraSpec) (cams : List HardwareCamera) :
    List (String × Range) :=
  ("Distance range", spec.distanceRange) :: ("Light range", spec.lightRange) ::
    cams.flatMap fun c =>
      [(cameraDistName c.id, c.distanceRange), (cameraLightName c.id, c.lightRange)]

/-! ## Validation lemmas -/

theorem validateRange_ok_iff (r : Range) (name : String) :
    validateRange r name = .ok () ↔ rangeOk r = true := by
  unfold validateRange rangeOk
  cases hm : r.min.isFinite <;> cases hx : r.max.isFinite <;>
    cases hg : jsGt r.min r.max <;> simp [hm, hx, hg]

theorem validateRange_error_of_not_ok (r : Range) (name : String) (h : rangeOk r = false) :
    ∃ e, validateRange r name = .error e ∧ e.rangeName = some name := by
  have hok : validateRange r name ≠ .ok () := by
    rw [Ne, validateRange_ok_iff]
    simp [h]
  unfold validateRange at hok ⊢
  by_cases h1 : (!r.min.isFinite || !r.max.isFinite) = true
  · rw [if_pos h1]
    exact ⟨_, rfl, rfl⟩
  · rw [if_neg h1] at hok ⊢
    by_cases h2 : jsGt r.min r.max = true
    · rw [if_pos h2]
      exact ⟨_, rfl, rfl⟩
    · rw [if_neg h2] at hok
      exact absurd rfl hok

theorem validateSoftwareCameraSpec_ok (spec : SoftwareCameraSpec) (h : ValidSpec spec) :
    validateSoftwareCameraSpec spec = .ok () := by
  unfold validateSoftwareCameraSpec
  rw [(validateRange_ok_iff _ _).mpr h.1]
  show validateRange spec.lightRange "Light range" = .ok ()
  exact (validateRange_ok_iff _ _).mpr h.2

theorem validateHardwareCamera_ok (c : HardwareCamera) (i : Nat) (h : ValidCamera c) :
    validateHardwareCamera c i = .ok () := by
  unfold validateHardwareCamera
  rw [if_neg h.1, (validateRange_ok_iff _ _).mpr h.2.1]
  show validateRange c.lightRange (cameraLightName c.id) = .ok ()
  exact (validateRange_ok_iff _ _).mpr h.2.2

theorem validateEachCamera_ok (cams : List HardwareCamera) (n : Nat)
    (h : ∀ c ∈ cams, ValidCamera c) : validateEachCamera cams n = .ok () := by
  induction cams generalizing n with
  | nil => rfl
  | cons c rest ih =>
      unfold validateEachCamera
      rw [validateHardwareCamera_ok c n (h c (by simp))]
      show validateEachCamera rest (n + 1) = .ok ()
      exact ih (n + 1) fun x hx => h x (by simp [hx])

theorem dedup_length_eq_iff (l : List String) : l.dedup.length = l.length ↔ l.Nodup := by
  constructor
  · intro h
    have := l.dedup_sublist.eq_of_length h
    rw [← this]
    exact l.nodup_dedup
  · intro h
    rw [List.dedup_eq_self.mpr h]

theorem validateHardwareCameras_ok (cams : List HardwareCamera) (h : ValidCameraList cams) :
    validateHardwareCameras cams = .ok () := by
  unfold validateHardwareCameras
  rw [validateEachCamera_ok cams 0 h.1]
  have hn : (cams.map HardwareCamera.id).dedup.length = (cams.map HardwareCamera.id).length :=
    (dedup_length_eq_iff _).mpr h.2
  simp only [Except.bind]
  rw [if_neg (by simpa using hn)]
  rfl

theorem validateInputs_ok (spec : SoftwareCameraSpec) (cams : List HardwareCamera)
    (hs : ValidSpec spec) (hc : ValidCameraList cams) :
    validateInputs spec cams = .ok () := by
  unfold validateInputs
  rw [validateSoftwareCameraSpec_ok spec hs]
  show validateHardwareCameras cams = .ok ()
  exact validateHardwareCameras_ok cams hc

/-! ## Plumbing: the three top-level branches of `checkCameraCoverage` -/

theorem checkCameraCoverage_error {spec : SoftwareCameraSpec} {cams : List HardwareCamera}
    {e : ValidationError} (h : validateInputs spec cams = .error e) :
    checkCameraCoverage spec cams =
      ⟨false, .validationFailure e,
        some [⟨spec.distanceRange, spec.lightRange⟩], none⟩ := by
  unfold checkCameraCoverage
  rw [h]

theorem checkCameraCoverage_nil (spec : SoftwareCameraSpec)
    (h : validateInputs spec [] = .ok ()) :
    checkCameraCoverage spec [] =
      ⟨false, .noHardwareCameras, some [⟨spec.distanceRange, spec.lightRange⟩],
        some (calculateStatistics 0 2 2 1)⟩ := by
  unfold checkCameraCoverage
  rw [h]
  rfl

theorem checkCameraCoverage_of_ok {spec : SoftwareCameraSpec} {cams : List HardwareCamera}
    (h : validateInputs spec cams = .ok ()) (hne : cams ≠ []) :
    checkCameraCoverage spec cams = gridScanResult spec cams := by
  unfold checkCameraCoverage
  rw [h]
  exact if_neg (by simpa using hne)

/-! ## Structure of the collected boundary list -/

theorem collectBoundaries_nodup (target : QRange) (rs : List QRange) :
    (collectBoundaries target rs).Nodup :=
  ((List.perm_insertionSort _ _).nodup_iff).mpr (List.nodup_dedup _)

theorem collectBoundaries_sorted (target : QRange) (rs : List QRange) :
    (collectBoundaries target rs).Sorted (· < ·) :=
  (List.sorted_insertionSort _ _).lt_of_le (collectBoundaries_nodup target rs)

theorem mem_collectBoundaries_iff {target : QRange} {rs : List QRange} {x : ℚ} :
    x ∈ collectBoundaries target rs ↔ x ∈ boundaryList target rs := by
  unfold collectBoundaries
  rw [(List.perm_insertionSort _ _).mem_iff, List.mem_dedup]

theorem target_min_mem_collectBoundaries (target : QRange) (rs : List QRange) :
    target.min ∈ collectBoundaries target rs := by
  rw [mem_collectBoundaries_iff]
  exact List.mem_cons_self _ _

theorem target_max_mem_collectBoundaries (target : QRange) (rs : List QRange) :
    target.max ∈ collectBoundaries target rs := by
  rw [mem_collectBoundaries_iff]
  exact List.mem_cons.mpr (Or.inr (List.mem_cons_self _ _))

theorem camera_min_mem_collectBoundaries {target : QRange} {rs : List QRange} {r : QRange}
    (hr : r ∈ rs) (h1 : target.min ≤ r.min) (h2 : r.min ≤ target.max) :
    r.min ∈ collectBoundaries target rs := by
  rw [mem_collectBoundaries_iff]
  refine List.mem_cons.mpr (Or.inr (List.mem_cons.mpr (Or.inr ?_)))
  rw [List.mem_flatMap]
  refine ⟨r, hr, List.mem_append.mpr (Or.inl ?_)⟩
  rw [if_pos ⟨h1, h2⟩]
  exact List.mem_singleton.mpr rfl

theorem camera_max_mem_collectBoundaries {target : QRange} {rs : List QRange} {r : QRange}
    (hr : r ∈ rs) (h1 : target.min ≤ r.max) (h2 : r.max ≤ target.max) :
    r.max ∈ collectBoundaries target rs := by
  rw [mem_collectBoundaries_iff]
  refine List.mem_cons.mpr (Or.inr (List.mem_cons.mpr (Or.inr ?_)))
  rw [List.mem_flatMap]
  refine ⟨r, hr, List.mem_append.mpr (Or.inr ?_)⟩
  rw [if_pos ⟨h1, h2⟩]
  exact List.mem_singleton.mpr rfl

theorem mem_collectBoundaries_bounds {target : QRange} {rs : List QRange} {x : ℚ}
    (ht : target.min ≤ target.max) (hx : x ∈ collectBoundaries target rs) :
    target.min ≤ x ∧ x ≤ target.max := by
  rw [mem_collectBoundaries_iff] at hx
  unfold boundaryList at hx
  rcases List.mem_cons.mp hx with rfl | hx
  · exact ⟨le_refl _, ht⟩
  rcases List.mem_cons.mp hx with rfl | hx
  · exact ⟨ht, le_refl _⟩
  rw [List.mem_flatMap] at hx
  obtain ⟨r, _, hx⟩ := hx
  rcases List.mem_append.mp hx with hx | hx
  · by_cases hc : r.min ≥ target.min ∧ r.min ≤ target.max
    · rw [if_pos hc] at hx
      rw [List.mem_singleton.mp hx]
      exact hc
    · rw [if_neg hc] at hx
      exact absurd hx (List.not_mem_nil x)
  · by_cases hc : r.max ≥ target.min ∧ r.max ≤ target.max
    · rw [if_pos hc] at hx
      rw [List.mem_singleton.mp hx]
      exact hc
    · rw [if_neg hc] at hx
      exact absurd hx (List.not_mem_nil x)

theorem eq_singleton_of_nodup_of_all_eq {l : List ℚ} {a : ℚ} (hn : l.Nodup)
    (hall : ∀ x ∈ l, x = a) (ha : a ∈ l) : l = [a] := by
  match l, hn, hall, ha with
  | [], _, _, ha => exact absurd ha (List.not_mem_nil a)
  | [x], _, hall, _ => rw [hall x (List.mem_singleton.mpr rfl)]
  | x :: y :: t, hn, hall, _ =>
      exfalso
      have hx := hall x (by simp)
      have hy := hall y (by simp)
      rw [List.nodup_cons] at hn
      exact hn.1 (by rw [hx, ← hy]; exact List.mem_cons_self _ _)

theorem collectBoundaries_degenerate {target : QRange} (rs : List QRange)
    (h : target.min = target.max) : collectBoundaries target rs = [target.min] := by
  refine eq_singleton_of_nodup_of_all_eq (collectBoundaries_nodup _ _)
    (fun x hx => ?_) (target_min_mem_collectBoundaries _ _)
  have hb := mem_collectBoundaries_bounds (le_of_eq h) hx
  exact le_antisymm (h ▸ hb.2) hb.1

/-! ## Indexed access into a sorted boundary list -/

theorem sorted_getD_lt {l : List ℚ} (hs : l.Sorted (· < ·)) {i j : Nat}
    (hij : i < j) (hj : j < l.length) : l.getD i 0 < l.getD j 0 := by
  rw [List.getD_eq_getElem _ _ (lt_trans hij hj), List.getD_eq_getElem _ _ hj]
  exact List.pairwise_iff_getElem.mp hs i j (lt_trans hij hj) hj hij

theorem sorted_getD_zero_le {l : List ℚ} (hs : l.Sorted (· < ·)) {x : ℚ}
    (hx : x ∈ l) : l.getD 0 0 ≤ x := by
  obtain ⟨k, hk, he⟩ := List.mem_iff_getElem.mp hx
  rw [← List.getD_eq_getElem l 0 hk] at he
  rcases Nat.eq_zero_or_pos k with rfl | hpos
  · exact le_of_eq he
  · exact he ▸ le_of_lt (sorted_getD_lt hs hpos hk)

theorem le_sorted_getD_last {l : List ℚ} (hs : l.Sorted (· < ·)) {x : ℚ}
    (hx : x ∈ l) : x ≤ l.getD (l.length - 1) 0 := by
  obtain ⟨k, hk, he⟩ := List.mem_iff_getElem.mp hx
  rw [← List.getD_eq_getElem l 0 hk] at he
  rcases Nat.lt_or_ge k (l.length - 1) with hlt | hge
  · exact he ▸ le_of_lt (sorted_getD_lt hs hlt (by omega))
  · have : k = l.length - 1 := by omega
    rw [← this, he]

theorem two_le_length_of_mem_ne {l : List ℚ} {a b : ℚ} (ha : a ∈ l) (hb : b ∈ l)
    (hab : a ≠ b) : 2 ≤ l.length := by
  match l with
  | [] => exact absurd ha (List.not_mem_nil a)
  | [x] =>
      rw [List.mem_singleton] at ha hb
      exact absurd (ha.trans hb.symm) hab
  | x :: y :: t => simp only [List.length_cons]; omega

theorem not_strict_between {l : List ℚ} (hs : l.Sorted (· < ·)) {x : ℚ} (hx : x ∈ l)
    {i : Nat} (hi : i + 1 < l.length)
    (h1 : l.getD i 0 < x) (h2 : x < l.getD (i + 1) 0) : False := by
  obtain ⟨k, hk, he⟩ := List.mem_iff_getElem.mp hx
  rw [← List.getD_eq_getElem l 0 hk] at he
  rcases Nat.lt_or_ge k (i + 1) with hki | hki
  · have hle : x ≤ l.getD i 0 := by
      rcases Nat.lt_or_ge k i with hlt | hge
      · exact he ▸ le_of_lt (sorted_getD_lt hs hlt (by omega))
      · have : k = i := by omega
        rw [← this, he]
    exact absurd h1 (not_lt.mpr hle)
  · have hge2 : l.getD (i + 1) 0 ≤ x := by
      rcases Nat.lt_or_ge (i + 1) k with hlt | hge
      · exact he ▸ le_of_lt (sorted_getD_lt hs hlt hk)
      · have : k = i + 1 := by omega
        rw [← this, he]
    exact absurd h2 (not_lt.mpr hge2)

theorem exists_cell_index (target : QRange) (rs : List QRange) {d : ℚ}
    (hne : target.min < target.max) (h1 : target.min ≤ d) (h2 : d ≤ target.max) :
    ∃ i, i + 1 < (collectBoundaries target rs).length ∧
      (collectBoundaries target rs).getD i 0 ≤ d ∧
      d ≤ (collectBoundaries target rs).getD (i + 1) 0 := by
  set D := collectBoundaries target rs with hD
  have hs : D.Sorted (· < ·) := collectBoundaries_sorted target rs
  have hmin : target.min ∈ D := target_min_mem_collectBoundaries target rs
  have hmax : target.max ∈ D := target_max_mem_collectBoundaries target rs
  have hlen : 2 ≤ D.length := two_le_length_of_mem_ne hmin hmax (ne_of_lt hne)
  set n := D.length - 2 with hn
  have hP0 : D.getD 0 0 ≤ d := le_trans (sorted_getD_zero_le hs hmin) h1
  have hile : Nat.findGreatest (fun j => D.getD j 0 ≤ d) n ≤ n :=
    Nat.findGreatest_le (P := fun j => D.getD j 0 ≤ d) n
  refine ⟨Nat.findGreatest (fun j => D.getD j 0 ≤ d) n, by omega,
    Nat.findGreatest_spec (P := fun j => D.getD j 0 ≤ d) (Nat.zero_le n) hP0, ?_⟩
  rcases Nat.lt_or_ge (Nat.findGreatest (fun j => D.getD j 0 ≤ d) n) n with hlt | hge
  · have hnot := Nat.findGreatest_is_greatest (P := fun j => D.getD j 0 ≤ d)
      (Nat.lt_succ_self (Nat.findGreatest (fun j => D.getD j 0 ≤ d) n)) (by omega)
    exact le_of_lt (not_le.mp hnot)
  · have heq : Nat.findGreatest (fun j => D.getD j 0 ≤ d) n = n := le_antisymm hile hge
    rw [heq, show n + 1 = D.length - 1 by omega]
    exact le_trans h2 (le_sorted_getD_last hs hmax)

/-! ## The grid scan and pointwise coverage -/

theorem getD_mem {l : List ℚ} {i : Nat} (h : i < l.length) : l.getD i 0 ∈ l := by
  rw [List.getD_eq_getElem _ _ h]
  exact List.getElem_mem h

theorem scanUncovered_eq_nil_iff (spec : QSpec) (cams : List QCam) (D L : List ℚ) :
    scanUncovered spec cams D L = [] ↔
      ∀ i j, i + 1 < D.length → j + 1 < L.length →
        isWithinTarget spec (D.getD i 0) (D.getD (i + 1) 0)
          (L.getD j 0) (L.getD (j + 1) 0) = true →
        anyCoversRegion cams (D.getD i 0) (D.getD (i + 1) 0)
          (L.getD j 0) (L.getD (j + 1) 0) = true := by
  unfold scanUncovered
  rw [List.flatMap_eq_nil_iff]
  constructor
  · intro h i j hi hj hw
    have h2 := h i (List.mem_range.mpr (by omega))
    rw [List.flatMap_eq_nil_iff] at h2
    have h3 := h2 j (List.mem_range.mpr (by omega))
    simp only [hw, if_true] at h3
    by_cases ha : anyCoversRegion cams (D.getD i 0) (D.getD (i + 1) 0)
        (L.getD j 0) (L.getD (j + 1) 0) = true
    · exact ha
    · rw [Bool.not_eq_true] at ha
      rw [ha] at h3
      simp at h3
  · intro h i hi
    rw [List.flatMap_eq_nil_iff]
    intro j hj
    rw [List.mem_range] at hi hj
    by_cases hw : isWithinTarget spec (D.getD i 0) (D.getD (i + 1) 0)
        (L.getD j 0) (L.getD (j + 1) 0) = true
    · rw [if_pos hw, if_pos (h i j (by omega) (by omega) hw)]
    · rw [if_neg hw]

theorem scanUncovered_nil_of_short_dist {spec : QSpec} {cams : List QCam}
    {D L : List ℚ} (h : D.length ≤ 1) : scanUncovered spec cams D L = [] := by
  unfold scanUncovered
  rw [show D.length - 1 = 0 by omega]
  rfl

theorem scanUncovered_nil_of_short_light {spec : QSpec} {cams : List QCam}
    {D L : List ℚ} (h : L.length ≤ 1) : scanUncovered spec cams D L = [] := by
  unfold scanUncovered
  rw [show L.length - 1 = 0 by omega]
  rw [List.flatMap_eq_nil_iff]
  intro x _
  rfl

theorem consecutive_no_mem_between {target : QRange} {rs : List QRange} {i : Nat}
    (hi : i + 1 < (collectBoundaries target rs).length) :
    ∀ x ∈ collectBoundaries target rs,
      ¬((collectBoundaries target rs).getD i 0 < x ∧
        x < (collectBoundaries target rs).getD (i + 1) 0) :=
  fun _ hx h => not_strict_between (collectBoundaries_sorted _ _) hx hi h.1 h.2

/-- The heart of the soundness argument: a grid cell whose open interior
contains no boundary of either axis, and whose midpoint is covered by some
camera, is fully contained in that camera. -/
theorem cell_any_covered (spec : QSpec) (cams : List QCam)
    {a b c e : ℚ} (hab : a < b) (hce : c < e)
    (hwa : spec.distanceRange.min ≤ a) (hwb : b ≤ spec.distanceRange.max)
    (hwc : spec.lightRange.min ≤ c) (hwe : e ≤ spec.lightRange.max)
    (hnoD : ∀ x ∈ collectBoundaries spec.distanceRange (cams.map QCam.distanceRange),
      ¬(a < x ∧ x < b))
    (hnoL : ∀ x ∈ collectBoundaries spec.lightRange (cams.map QCam.lightRange),
      ¬(c < x ∧ x < e))
    (hcov : QCoversTarget spec cams) :
    anyCoversRegion cams a b c e = true := by
  obtain ⟨cam, hcmem, hcp⟩ := hcov ((a + b) / 2) ((c + e) / 2)
    (by linarith) (by linarith) (by linarith) (by linarith)
  simp only [cameraCoversPoint, Bool.and_eq_true, decide_eq_true_eq, ge_iff_le] at hcp
  obtain ⟨⟨⟨hp1, hp2⟩, hp3⟩, hp4⟩ := hcp
  have hdmem : cam.distanceRange ∈ cams.map QCam.distanceRange :=
    List.mem_map.mpr ⟨cam, hcmem, rfl⟩
  have hlmem : cam.lightRange ∈ cams.map QCam.lightRange :=
    List.mem_map.mpr ⟨cam, hcmem, rfl⟩
  have h1 : cam.distanceRange.min ≤ a := by
    by_contra hlt
    rw [not_le] at hlt
    refine hnoD cam.distanceRange.min
      (camera_min_mem_collectBoundaries hdmem (by linarith) (by linarith)) ⟨hlt, ?_⟩
    linarith
  have h2 : b ≤ cam.distanceRange.max := by
    by_contra hlt
    rw [not_le] at hlt
    refine hnoD cam.distanceRange.max
      (camera_max_mem_collectBoundaries hdmem (by linarith) (by linarith)) ⟨by linarith, hlt⟩
  have h3 : cam.lightRange.min ≤ c := by
    by_contra hlt
    rw [not_le] at hlt
    refine hnoL cam.lightRange.min
      (camera_min_mem_collectBoundaries hlmem (by linarith) (by linarith)) ⟨hlt, ?_⟩
    linarith
  have h4 : e ≤ cam.lightRange.max := by
    by_contra hlt
    rw [not_le] at hlt
    refine hnoL cam.lightRange.max
      (camera_max_mem_collectBoundaries hlmem (by linarith) (by linarith)) ⟨by linarith, hlt⟩
  rw [anyCoversRegion, List.any_eq_true]
  refine ⟨cam, hcmem, ?_⟩
  simp only [cameraCoversRegion, Bool.and_eq_true, decide_eq_true_eq, ge_iff_le]
  exact ⟨⟨⟨h1, h2⟩, h3⟩, h4⟩

/-- If the union of the cameras covers the whole target, every scanned
cell is covered by a single camera, so the scan records nothing. -/
theorem scan_eq_nil_of_covers (spec : QSpec) (cams : List QCam)
    (hcov : QCoversTarget spec cams) :
    scanUncovered spec cams
      (collectBoundaries spec.distanceRange (cams.map QCam.distanceRange))
      (collectBoundaries spec.lightRange (cams.map QCam.lightRange)) = [] := by
  rw [scanUncovered_eq_nil_iff]
  intro i j hi hj hw
  simp only [isWithinTarget, Bool.and_eq_true, decide_eq_true_eq, ge_iff_le] at hw
  obtain ⟨⟨⟨hw1, hw2⟩, hw3⟩, hw4⟩ := hw
  exact cell_any_covered spec cams
    (sorted_getD_lt (collectBoundaries_sorted _ _) (Nat.lt_succ_self i) hi)
    (sorted_getD_lt (collectBoundaries_sorted _ _) (Nat.lt_succ_self j) hj)
    hw1 hw2 hw3 hw4
    (consecutive_no_mem_between hi) (consecutive_no_mem_between hj) hcov

/-- Conversely, for a non-degenerate target an empty scan means every
target point is covered: locate the cell containing the point; some single
camera contains that cell, hence the point. -/
theorem covers_of_scan_eq_nil (spec : QSpec) (cams : List QCam)
    (hd : spec.distanceRange.min < spec.distanceRange.max)
    (hl : spec.lightRange.min < spec.lightRange.max)
    (h : scanUncovered spec cams
      (collectBoundaries spec.distanceRange (cams.map QCam.distanceRange))
      (collectBoundaries spec.lightRange (cams.map QCam.lightRange)) = []) :
    QCoversTarget spec cams := by
  rw [scanUncovered_eq_nil_iff] at h
  intro d l h1 h2 h3 h4
  obtain ⟨i, hi, hia, hib⟩ :=
    exists_cell_index spec.distanceRange (cams.map QCam.distanceRange) hd h1 h2
  obtain ⟨j, hj, hja, hjb⟩ :=
    exists_cell_index spec.lightRange (cams.map QCam.lightRange) hl h3 h4
  have hw : isWithinTarget spec
      ((collectBoundaries spec.distanceRange (cams.map QCam.distanceRange)).getD i 0)
      ((collectBoundaries spec.distanceRange (cams.map QCam.distanceRange)).getD (i + 1) 0)
      ((collectBoundaries spec.lightRange (cams.map QCam.lightRange)).getD j 0)
      ((collectBoundaries spec.lightRange (cams.map QCam.lightRange)).getD (j + 1) 0) = true := by
    simp only [isWithinTarget, Bool.and_eq_true, decide_eq_true_eq, ge_iff_le]
    refine ⟨⟨⟨?_, ?_⟩, ?_⟩, ?_⟩
    · exact (mem_collectBoundaries_bounds (le_of_lt hd) (getD_mem (by omega))).1
    · exact (mem_collectBoundaries_bounds (le_of_lt hd) (getD_mem hi)).2
    · exact (mem_collectBoundaries_bounds (le_of_lt hl) (getD_mem (by omega))).1
    · exact (mem_collectBoundaries_bounds (le_of_lt hl) (getD_mem hj)).2
  have ha := h i j hi hj hw
  rw [anyCoversRegion, List.any_eq_true] at ha
  obtain ⟨cam, hcmem, hcr⟩ := ha
  simp only [cameraCoversRegion, Bool.and_eq_true, decide_eq_true_eq, ge_iff_le] at hcr
  obtain ⟨⟨⟨hc1, hc2⟩, hc3⟩, hc4⟩ := hcr
  refine ⟨cam, hcmem, ?_⟩
  simp only [cameraCoversPoint, Bool.and_eq_true, decide_eq_true_eq, ge_iff_le]
  exact ⟨⟨⟨le_trans hc1 hia, le_trans hib hc2⟩, le_trans hc3 hja⟩, le_trans hjb hc4⟩

/-! ## From the scan to the result record -/

theorem gridScanResult_eq (spec : SoftwareCameraSpec) (cams : List HardwareCamera) :
    gridScanResult spec cams =
      if (scanOf spec cams).length = 0 then
        ⟨true, .coverageComplete cams.length, none, some (statsOf spec cams)⟩
      else
        ⟨false, .coverageIncomplete (scanOf spec cams).length (statsOf spec cams).coveragePercentage,
          some ((scanOf spec cams).map QRegion.toJs), some (statsOf spec cams)⟩ := rfl

theorem checkCameraCoverage_isSufficient_iff_scan (spec : SoftwareCameraSpec)
    (cams : List HardwareCamera) (hok : validateInputs spec cams = .ok ()) (hne : cams ≠ []) :
    (checkCameraCoverage spec cams).isSufficient = true ↔ scanOf spec cams = [] := by
  rw [checkCameraCoverage_of_ok hok hne, gridScanResult_eq]
  rcases eq_or_ne (scanOf spec cams) [] with h | h
  · rw [if_pos (by simp [h])]
    simp [h]
  · rw [if_neg (by simpa [List.length_eq_zero] using h)]
    simp [h]

theorem scanOf_degenerate_dist (spec : SoftwareCameraSpec) (cams : List HardwareCamera)
    (h : spec.toQ.distanceRange.min = spec.toQ.distanceRange.max) :
    scanOf spec cams = [] := by
  unfold scanOf
  apply scanUncovered_nil_of_short_dist
  unfold distBoundariesOf
  rw [collectBoundaries_degenerate _ h]
  simp

theorem scanOf_degenerate_light (spec : SoftwareCameraSpec) (cams : List HardwareCamera)
    (h : spec.toQ.lightRange.min = spec.toQ.lightRange.max) :
    scanOf spec cams = [] := by
  unfold scanOf
  apply scanUncovered_nil_of_short_light
  unfold lightBoundariesOf
  rw [collectBoundaries_degenerate _ h]
  simp

/-- With no uncovered cell and at least one real cell per axis the
percentage is exactly 100. -/
theorem coveragePercentage_of_no_uncovered {nc db lb : Nat} (hdb : 2 ≤ db) (hlb : 2 ≤ lb) :
    (calculateStatistics nc db lb 0).coveragePercentage = 100 := by
  unfold calculateStatistics
  dsimp only
  have hpos : (0 : Int) < ((db : Int) - 1) * ((lb : Int) - 1) := by
    have h1 : (1 : Int) ≤ (db : Int) - 1 := by omega
    have h2 : (1 : Int) ≤ (lb : Int) - 1 := by omega
    nlinarith
  have hmax : max 0 (((db : Int) - 1) * ((lb : Int) - 1)) =
      ((db : Int) - 1) * ((lb : Int) - 1) := max_eq_right (le_of_lt hpos)
  rw [hmax, if_pos hpos]
  have hne : ((((db : Int) - 1) * ((lb : Int) - 1) : Int) : ℚ) ≠ 0 := by
    exact_mod_cast ne_of_gt hpos
  rw [Nat.cast_zero, sub_zero, div_self hne, one_mul]
  have : ((100 : ℤ) : ℚ) = (100 : ℚ) := by norm_num
  rw [← this, round_intCast]

/-! ## Pointwise coverage at the raw-input level -/

theorem rangeOk_toQ_le {r : Range} (h : rangeOk r = true) : r.toQ.min ≤ r.toQ.max := by
  unfold rangeOk at h
  simp only [Bool.and_eq_true, Bool.not_eq_true'] at h
  obtain ⟨⟨h1, h2⟩, h3⟩ := h
  cases hm : r.min with
  | fin a =>
      cases hx : r.max with
      | fin b =>
          unfold Range.toQ
          rw [hm, hx] at h3 ⊢
          unfold jsGt jsLt at h3
          simp only [decide_eq_false_iff_not] at h3
          unfold JsNum.toQ
          exact not_lt.mp h3
      | nan => rw [hx] at h2; simp [JsNum.isFinite] at h2
      | posInf => rw [hx] at h2; simp [JsNum.isFinite] at h2
      | negInf => rw [hx] at h2; simp [JsNum.isFinite] at h2
  | nan => rw [hm] at h1; simp [JsNum.isFinite] at h1
  | posInf => rw [hm] at h1; simp [JsNum.isFinite] at h1
  | negInf => rw [hm] at h1; simp [JsNum.isFinite] at h1

theorem coversTarget_iff_q (spec : SoftwareCameraSpec) (cams : List HardwareCamera) :
    CoversTarget spec cams ↔ QCoversTarget spec.toQ (cams.map HardwareCamera.toQ) := by
  unfold CoversTarget QCoversTarget
  constructor
  · intro h d l h1 h2 h3 h4
    obtain ⟨c, hc, hcp⟩ := h d l h1 h2 h3 h4
    exact ⟨c.toQ, List.mem_map.mpr ⟨c, hc, rfl⟩, hcp⟩
  · intro h d l h1 h2 h3 h4
    obtain ⟨qc, hqc, hcp⟩ := h d l h1 h2 h3 h4
    obtain ⟨c, hc, rfl⟩ := List.mem_map.mp hqc
    exact ⟨c, hc, hcp⟩

theorem scanOf_eq_nil_of_covers (spec : SoftwareCameraSpec) (cams : List HardwareCamera)
    (hcov : CoversTarget spec cams) : scanOf spec cams = [] := by
  unfold scanOf distBoundariesOf lightBoundariesOf
  exact scan_eq_nil_of_covers spec.toQ (cams.map HardwareCamera.toQ)
    ((coversTarget_iff_q spec cams).mp hcov)

theorem covers_of_scanOf_eq_nil (spec : SoftwareCameraSpec) (cams : List HardwareCamera)
    (hd : spec.toQ.distanceRange.min < spec.toQ.distanceRange.max)
    (hl : spec.toQ.lightRange.min < spec.toQ.lightRange.max)
    (h : scanOf spec cams = []) : CoversTarget spec cams := by
  rw [coversTarget_iff_q]
  apply covers_of_scan_eq_nil spec.toQ (cams.map HardwareCamera.toQ) hd hl
  unfold scanOf distBoundariesOf lightBoundariesOf at h
  exact h

/-! ## Which range a validation error names -/

theorem rangeOk_true_of_not_false {r : Range} (h : ¬ rangeOk r = false) : rangeOk r = true := by
  cases h2 : rangeOk r
  · exact absurd h2 h
  · rfl

theorem validateEachCamera_error_names_range (cams : List HardwareCamera) (n : Nat)
    (hids : ∀ c ∈ cams, c.id ≠ "")
    (hbad : ∃ c ∈ cams, rangeOk c.distanceRange = false ∨ rangeOk c.lightRange = false) :
    ∃ e, validateEachCamera cams n = .error e ∧
      ∃ c ∈ cams,
        ((e.rangeName = some (cameraDistName c.id) ∧ rangeOk c.distanceRange = false) ∨
         (e.rangeName = some (cameraLightName c.id) ∧ rangeOk c.lightRange = false)) := by
  induction cams generalizing n with
  | nil =>
      obtain ⟨c, hc, _⟩ := hbad
      exact absurd hc (List.not_mem_nil c)
  | cons a rest ih =>
      by_cases hda : rangeOk a.distanceRange = false
      · obtain ⟨e, he, hn⟩ :=
          validateRange_error_of_not_ok a.distanceRange (cameraDistName a.id) hda
        refine ⟨e, ?_, a, List.mem_cons_self _ _, Or.inl ⟨hn, hda⟩⟩
        unfold validateEachCamera validateHardwareCamera
        rw [if_neg (hids a (List.mem_cons_self _ _)), he]
        rfl
      · by_cases hla : rangeOk a.lightRange = false
        · obtain ⟨e, he, hn⟩ :=
            validateRange_error_of_not_ok a.lightRange (cameraLightName a.id) hla
          refine ⟨e, ?_, a, List.mem_cons_self _ _, Or.inr ⟨hn, hla⟩⟩
          unfold validateEachCamera validateHardwareCamera
          rw [if_neg (hids a (List.mem_cons_self _ _)),
            (validateRange_ok_iff _ _).mpr (rangeOk_true_of_not_false hda), he]
          rfl
        · have hbad' : ∃ c ∈ rest,
              rangeOk c.distanceRange = false ∨ rangeOk c.lightRange = false := by
            obtain ⟨c, hc, hco⟩ := hbad
            rcases List.mem_cons.mp hc with rfl | hc
            · rcases hco with hco | hco
              · exact absurd hco hda
              · exact absurd hco hla
            · exact ⟨c, hc, hco⟩
          obtain ⟨e, he, c, hc, hp⟩ :=
            ih (n + 1) (fun c hc => hids c (List.mem_cons.mpr (Or.inr hc))) hbad'
          refine ⟨e, ?_, c, List.mem_cons.mpr (Or.inr hc), hp⟩
          unfold validateEachCamera
          rw [validateHardwareCamera_ok a n
            ⟨hids a (List.mem_cons_self _ _), rangeOk_true_of_not_false hda,
             rangeOk_true_of_not_false hla⟩]
          exact he

theorem validation_error_names_range (spec : SoftwareCameraSpec) (cams : List HardwareCamera)
    (hids : ∀ c ∈ cams, c.id ≠ "")
    (hbad : ∃ p ∈ rangeChecklist spec cams, rangeOk p.2 = false) :
    ∃ e, validateInputs spec cams = .error e ∧
      ∃ nm r, e.rangeName = some nm ∧ (nm, r) ∈ rangeChecklist spec cams ∧
        rangeOk r = false := by
  by_cases hd : rangeOk spec.distanceRange = false
  · obtain ⟨e, he, hn⟩ := validateRange_error_of_not_ok spec.distanceRange "Distance range" hd
    refine ⟨e, ?_, "Distance range", spec.distanceRange, hn, List.mem_cons_self _ _, hd⟩
    unfold validateInputs validateSoftwareCameraSpec
    rw [he]
    rfl
  · have hd' := rangeOk_true_of_not_false hd
    by_cases hlr : rangeOk spec.lightRange = false
    · obtain ⟨e, he, hn⟩ := validateRange_error_of_not_ok spec.lightRange "Light range" hlr
      refine ⟨e, ?_, "Light range", spec.lightRange, hn,
        List.mem_cons.mpr (Or.inr (List.mem_cons_self _ _)), hlr⟩
      unfold validateInputs validateSoftwareCameraSpec
      rw [(validateRange_ok_iff _ _).mpr hd', he]
      rfl
    · have hl' := rangeOk_true_of_not_false hlr
      have hbadc : ∃ c ∈ cams,
          rangeOk c.distanceRange = false ∨ rangeOk c.lightRange = false := by
        obtain ⟨p, hp, hpo⟩ := hbad
        rcases List.mem_cons.mp hp with rfl | hp
        · exact absurd hpo hd
        rcases List.mem_cons.mp hp with rfl | hp
        · exact absurd hpo hlr
        rw [List.mem_flatMap] at hp
        obtain ⟨c, hc, hp⟩ := hp
        rcases List.mem_cons.mp hp with rfl | hp
        · exact ⟨c, hc, Or.inl hpo⟩
        rcases List.mem_cons.mp hp with rfl | hp
        · exact ⟨c, hc, Or.inr hpo⟩
        · exact absurd hp (List.not_mem_nil p)
      obtain ⟨e, he, c, hc, hp⟩ := validateEachCamera_error_names_range cams 0 hids hbadc
      have hvhc : validateHardwareCameras cams = .error e := by
        unfold validateHardwareCameras
        rw [he]
        rfl
      refine ⟨e, ?_, ?_⟩
      · unfold validateInputs
        rw [validateSoftwareCameraSpec_ok spec ⟨hd', hl'⟩]
        exact hvhc
      · rcases hp with ⟨hn, hb⟩ | ⟨hn, hb⟩
        · refine ⟨cameraDistName c.id, c.distanceRange, hn, ?_, hb⟩
          refine List.mem_cons.mpr (Or.inr (List.mem_cons.mpr (Or.inr ?_)))
          rw [List.mem_flatMap]
          exact ⟨c, hc, List.mem_cons_self _ _⟩
        · refine ⟨cameraLightName c.id, c.lightRange, hn, ?_, hb⟩
          refine List.mem_cons.mpr (Or.inr (List.mem_cons.mpr (Or.inr ?_)))
          rw [List.mem_flatMap]
          exact ⟨c, hc, List.mem_cons.mpr (Or.inr (List.mem_cons_self _ _))⟩

/-! ## Duplicate-id detection -/

theorem jsIndexOf_le (l : List String) (i : Nat) (h : i < l.length) :
    jsIndexOf l (l.getD i "") ≤ i := by
  induction l generalizing i with
  | nil => simp at h
  | cons a rest ih =>
      cases i with
      | zero =>
          unfold jsIndexOf
          rw [List.getD_cons_zero, List.findIdx_cons]
          simp
      | succ k =>
          have hk : k < rest.length := by simpa using h
          rw [List.getD_cons_succ]
          unfold jsIndexOf at ih ⊢
          rw [List.findIdx_cons]
          by_cases ha : a = rest.getD k ""
          · simp [ha]
          · rw [decide_eq_false ha, Bool.cond_false]
            exact Nat.succ_le_succ (ih k hk)

theorem findDuplicateIds_ne_nil {ids : List String} (h : ¬ ids.Nodup) :
    findDuplicateIds ids ≠ [] := by
  unfold List.Nodup at h
  rw [List.pairwise_iff_getElem] at h
  push_neg at h
  obtain ⟨i, j, hi, hj, hij, heq⟩ := h
  intro hnil
  have hmem : ((j, ids.getD j "") : Nat × String) ∈ ids.enum := by
    have hjl : j < ids.enum.length := by rw [List.enum_length]; exact hj
    have he : ids.enum[j] = (j, ids[j]) := List.getElem_enum ids j hjl
    rw [List.getD_eq_getElem _ _ hj, ← he]
    exact List.getElem_mem hjl
  have hpred : jsIndexOf ids (ids.getD j "") ≠ j := by
    have h1 : jsIndexOf ids (ids.getD j "") ≤ i := by
      have hji : ids.getD j "" = ids.getD i "" := by
        rw [List.getD_eq_getElem _ _ hj, List.getD_eq_getElem _ _ hi]
        exact heq.symm
      rw [hji]
      exact jsIndexOf_le ids i hi
    omega
  have hf : ((j, ids.getD j "") : Nat × String) ∈
      ids.enum.filter fun p => jsIndexOf ids p.2 ≠ p.1 :=
    List.mem_filter.mpr ⟨hmem, by simpa using hpred⟩
  have hin : ids.getD j "" ∈ findDuplicateIds ids := List.mem_map.mpr ⟨_, hf, rfl⟩
  rw [hnil] at hin
  exact absurd hin (List.not_mem_nil _)

theorem validateHardwareCameras_duplicate (cams : List HardwareCamera)
    (hall : ∀ c ∈ cams, ValidCamera c) (hdup : ¬ (cams.map HardwareCamera.id).Nodup) :
    validateHardwareCameras cams =
      .error (.duplicateIdsFound (findDuplicateIds (cams.map HardwareCamera.id))) := by
  unfold validateHardwareCameras
  rw [validateEachCamera_ok cams 0 hall]
  have hlen : (cams.map HardwareCamera.id).dedup.length ≠ (cams.map HardwareCamera.id).length :=
    fun hc => hdup ((dedup_length_eq_iff _).mp hc)
  simp only [Except.bind]
  rw [if_pos hlen]
  rfl

/-! ## Remaining helper lemmas -/

theorem two_le_distBoundariesOf (spec : SoftwareCameraSpec) (cams : List HardwareCamera)
    (hd : spec.toQ.distanceRange.min < spec.toQ.distanceRange.max) :
    2 ≤ (distBoundariesOf spec cams).length := by
  unfold distBoundariesOf
  exact two_le_length_of_mem_ne (target_min_mem_collectBoundaries _ _)
    (target_max_mem_collectBoundaries _ _) (ne_of_lt hd)

theorem two_le_lightBoundariesOf (spec : SoftwareCameraSpec) (cams : List HardwareCamera)
    (hl : spec.toQ.lightRange.min < spec.toQ.lightRange.max) :
    2 ≤ (lightBoundariesOf spec cams).length := by
  unfold lightBoundariesOf
  exact two_le_length_of_mem_ne (target_min_mem_collectBoundaries _ _)
    (target_max_mem_collectBoundaries _ _) (ne_of_lt hl)

theorem rangeOk_fin {a b : ℚ} (h : a ≤ b) : rangeOk ⟨.fin a, .fin b⟩ = true := by
  unfold rangeOk JsNum.isFinite jsGt jsLt
  simp [not_lt.mpr h]

/-! ## Claim theorems -/

/-- C1, counterexample to the claim as stated: the target
`[5,5] × [100,100]` is valid (`min ≤ max`, finite) and the camera list
`[{id "c", [7,9] × [0,1]}]` is valid and non-empty, yet the check returns
`isSufficient = true` while the single target point `(5, 100)` lies in no
camera: a zero-width axis produces a single boundary, hence zero grid
cells, and the scan vacuously reports full coverage. -/
theorem checkCameraCoverage_degenerate_claims_sufficient :
    (checkCameraCoverage ⟨⟨.fin 5, .fin 5⟩, ⟨.fin 100, .fin 100⟩⟩
      [⟨"c", ⟨.fin 7, .fin 9⟩, ⟨.fin 0, .fin 1⟩⟩]).isSufficient = true ∧
    ¬ CoversTarget ⟨⟨.fin 5, .fin 5⟩, ⟨.fin 100, .fin 100⟩⟩
      [⟨"c", ⟨.fin 7, .fin 9⟩, ⟨.fin 0, .fin 1⟩⟩] := by
  constructor
  · decide
  · intro h
    obtain ⟨c, hc, hcp⟩ := h 5 100 (by decide) (by decide) (by decide) (by decide)
    rw [List.mem_singleton] at hc
    subst hc
    revert hcp
    decide

/-- C1 (amended): for a valid target that is non-degenerate on both axes
(`min < max` strictly) and a non-empty valid camera list,
`checkCameraCoverage` returns `isSufficient = true` exactly when every
point of the target rectangle lies in at least one camera's rectangle. -/
theorem checkCameraCoverage_isSufficient_iff_covers
    (spec : SoftwareCameraSpec) (cams : List HardwareCamera)
    (hs : ValidSpec spec)
    (hd : spec.toQ.distanceRange.min < spec.toQ.distanceRange.max)
    (hl : spec.toQ.lightRange.min < spec.toQ.lightRange.max)
    (hc : ValidCameraList cams) (hne : cams ≠ []) :
    (checkCameraCoverage spec cams).isSufficient = true ↔ CoversTarget spec cams := by
  rw [checkCameraCoverage_isSufficient_iff_scan spec cams
    (validateInputs_ok spec cams hs hc) hne]
  exact ⟨covers_of_scanOf_eq_nil spec cams hd hl, scanOf_eq_nil_of_covers spec cams⟩

/-- C1 witness: the amended equivalence applied at a concrete valid
non-degenerate input. -/
theorem checkCameraCoverage_isSufficient_iff_covers_witness :
    (checkCameraCoverage ⟨⟨.fin 0, .fin 1⟩, ⟨.fin 0, .fin 1⟩⟩
        [⟨"a", ⟨.fin 0, .fin 1⟩, ⟨.fin 0, .fin 1⟩⟩]).isSufficient = true ↔
      CoversTarget ⟨⟨.fin 0, .fin 1⟩, ⟨.fin 0, .fin 1⟩⟩
        [⟨"a", ⟨.fin 0, .fin 1⟩, ⟨.fin 0, .fin 1⟩⟩] :=
  checkCameraCoverage_isSufficient_iff_covers _ _ (by decide) (by decide) (by decide)
    (by decide) (by decide)

/-- C2: evaluation of the code at the failing input of the claim.  The
target `[5,5] × [100,100]` is zero-width on both axes, its single point
`(5, 100)` is contained in no camera (`c1` covers `[20,30] × [0,200]`),
yet the check returns `isSufficient = true`: the claimed degenerate-axis
guard does not exist in the code. -/
theorem checkCameraCoverage_zeroWidth_uncovered_eval :
    (checkCameraCoverage ⟨⟨.fin 5, .fin 5⟩, ⟨.fin 100, .fin 100⟩⟩
      [⟨"c1", ⟨.fin 20, .fin 30⟩, ⟨.fin 0, .fin 200⟩⟩]).isSufficient = true ∧
    (∀ c ∈ [(⟨"c1", ⟨.fin 20, .fin 30⟩, ⟨.fin 0, .fin 200⟩⟩ : HardwareCamera)],
      cameraCoversPoint c.toQ 5 100 = false) := by decide

/-- C4: with a valid target and an empty camera list the check returns the
fixed early result: `isSufficient = false`, the "no hardware cameras"
message, the whole target as the single uncovered region, and the
pre-canned statistics record (built with `calculateStatistics 0 2 2 1`,
whose `totalCameras` is `0`) — the grid scan is not involved. -/
theorem checkCameraCoverage_empty_cameras (spec : SoftwareCameraSpec) (hs : ValidSpec spec) :
    checkCameraCoverage spec [] =
      ⟨false, .noHardwareCameras, some [⟨spec.distanceRange, spec.lightRange⟩],
        some (calculateStatistics 0 2 2 1)⟩ ∧
    (calculateStatistics 0 2 2 1).totalCameras = 0 := by
  refine ⟨?_, rfl⟩
  exact checkCameraCoverage_nil spec (validateInputs_ok spec [] hs
    ⟨fun c h => absurd h (List.not_mem_nil c), List.nodup_nil⟩)

/-- C4 witness: the empty-camera law applied at a concrete valid target. -/
theorem checkCameraCoverage_empty_cameras_witness :
    checkCameraCoverage ⟨⟨.fin 0, .fin 1⟩, ⟨.fin 0, .fin 1⟩⟩ [] =
      ⟨false, .noHardwareCameras,
        some [⟨⟨.fin 0, .fin 1⟩, ⟨.fin 0, .fin 1⟩⟩],
        some (calculateStatistics 0 2 2 1)⟩ ∧
    (calculateStatistics 0 2 2 1).totalCameras = 0 :=
  checkCameraCoverage_empty_cameras _ (by decide)

/-- C10: on every input, `isSufficient = true` exactly when the result
carries no `uncoveredRegions`, and `isSufficient = false` exactly when it
carries a non-empty `uncoveredRegions` list (validation error, empty
camera list, and incomplete coverage all attach a non-empty list). -/
theorem isSufficient_iff_no_uncoveredRegions (spec : SoftwareCameraSpec)
    (cams : List HardwareCamera) :
    ((checkCameraCoverage spec cams).isSufficient = true ↔
      (checkCameraCoverage spec cams).uncoveredRegions = none) ∧
    ((checkCameraCoverage spec cams).isSufficient = false ↔
      ∃ l, (checkCameraCoverage spec cams).uncoveredRegions = some l ∧ l ≠ []) := by
  cases hv : validateInputs spec cams with
  | error e =>
      rw [checkCameraCoverage_error hv]
      constructor
      · simp
      · simp
  | ok u =>
      cases u
      rcases eq_or_ne cams [] with rfl | hne
      · rw [checkCameraCoverage_nil spec hv]
        constructor <;> simp
      · rw [checkCameraCoverage_of_ok hv hne, gridScanResult_eq]
        rcases eq_or_ne (scanOf spec cams) [] with h | h
        · rw [if_pos (by simp [h])]
          constructor <;> simp
        · rw [if_neg (by simpa [List.length_eq_zero] using h)]
          constructor
          · simp
          · constructor
            · intro _
              exact ⟨_, rfl, by simpa using h⟩
            · intro _
              rfl

/-- C3, counterexample to the claim as stated: appending the valid fresh
camera `b` (`[2,3] × [0,5]`) to `[a]` (where `a` covers `[0,10] × [20,30]`,
nothing inside the target `[0,10] × [0,10]`) refines the grid from one
cell to six and raises `statistics.uncoveredCells` from 1 to 5, so the
uncovered-cell count is not non-increasing under camera addition. -/
theorem uncoveredCells_increases_on_append :
    ((checkCameraCoverage ⟨⟨.fin 0, .fin 10⟩, ⟨.fin 0, .fin 10⟩⟩
        [⟨"a", ⟨.fin 0, .fin 10⟩, ⟨.fin 20, .fin 30⟩⟩]).statistics.map
          CoverageStatistics.uncoveredCells = some 1) ∧
    ((checkCameraCoverage ⟨⟨.fin 0, .fin 10⟩, ⟨.fin 0, .fin 10⟩⟩
        [⟨"a", ⟨.fin 0, .fin 10⟩, ⟨.fin 20, .fin 30⟩⟩,
         ⟨"b", ⟨.fin 2, .fin 3⟩, ⟨.fin 0, .fin 5⟩⟩]).statistics.map
          CoverageStatistics.uncoveredCells = some 5) ∧
    ¬ (5 : Nat) ≤ 1 := by decide

/-- C3 (amended): for a valid target and a valid camera list, appending
one further individually valid camera with a fresh id never changes
`isSufficient` from true to false (the uncovered-cell *count*, by the
counterexample, may grow). -/
theorem isSufficient_mono_append (spec : SoftwareCameraSpec) (cams : List HardwareCamera)
    (c : HardwareCamera) (hs : ValidSpec spec) (hc : ValidCameraList cams)
    (hcv : ValidCamera c) (hfresh : c.id ∉ cams.map HardwareCamera.id)
    (h : (checkCameraCoverage spec cams).isSufficient = true) :
    (checkCameraCoverage spec (cams ++ [c])).isSufficient = true := by
  have hc' : ValidCameraList (cams ++ [c]) := by
    constructor
    · intro x hx
      rcases List.mem_append.mp hx with hx | hx
      · exact hc.1 x hx
      · rw [List.mem_singleton] at hx
        rw [hx]
        exact hcv
    · rw [List.map_append, List.nodup_append]
      refine ⟨hc.2, List.nodup_singleton _, ?_⟩
      intro a ha hb
      rw [List.map_singleton, List.mem_singleton] at hb
      rw [hb] at ha
      exact hfresh ha
  have hne : cams ≠ [] := by
    intro hnil
    rw [hnil, checkCameraCoverage_nil spec (validateInputs_ok spec [] hs
      ⟨fun x hx => absurd hx (List.not_mem_nil x), List.nodup_nil⟩)] at h
    simp at h
  rw [checkCameraCoverage_isSufficient_iff_scan spec (cams ++ [c])
    (validateInputs_ok spec (cams ++ [c]) hs hc') (by simp)]
  rcases eq_or_lt_of_le (rangeOk_toQ_le hs.1) with hdeg | hd
  · exact scanOf_degenerate_dist spec (cams ++ [c]) hdeg
  rcases eq_or_lt_of_le (rangeOk_toQ_le hs.2) with hdeg | hl
  · exact scanOf_degenerate_light spec (cams ++ [c]) hdeg
  have hcov : CoversTarget spec cams :=
    covers_of_scanOf_eq_nil spec cams hd hl
      ((checkCameraCoverage_isSufficient_iff_scan spec cams
        (validateInputs_ok spec cams hs hc) hne).mp h)
  apply scanOf_eq_nil_of_covers
  intro d l h1 h2 h3 h4
  obtain ⟨cam, hcm, hcp⟩ := hcov d l h1 h2 h3 h4
  exact ⟨cam, List.mem_append.mpr (Or.inl hcm), hcp⟩

/-- C3 witness: monotonicity applied at a concrete input. -/
theorem isSufficient_mono_append_witness :
    (checkCameraCoverage ⟨⟨.fin 0, .fin 1⟩, ⟨.fin 0, .fin 1⟩⟩
      ([⟨"a", ⟨.fin 0, .fin 1⟩, ⟨.fin 0, .fin 1⟩⟩] ++
        [⟨"b", ⟨.fin 0, .fin 1⟩, ⟨.fin 0, .fin 1⟩⟩])).isSufficient = true :=
  isSufficient_mono_append _ _ _ (by decide) (by decide) (by decide) (by decide) (by decide)

set_option maxHeartbeats 1000000 in
/-- C5, counterexample to the claim as stated: for the valid zero-width
target `[5,5] × [100,100]` and the single camera with exactly the target's
ranges, the check does return `isSufficient = true`, but both axes
collapse to one boundary, `totalCells = max 0 (0·0) = 0`, and the quoted
formula then defines `coveragePercentage = 0`, not 100. -/
theorem selfCoverage_degenerate_percentage_zero :
    (checkCameraCoverage ⟨⟨.fin 5, .fin 5⟩, ⟨.fin 100, .fin 100⟩⟩
      [⟨"c", ⟨.fin 5, .fin 5⟩, ⟨.fin 100, .fin 100⟩⟩]).isSufficient = true ∧
    ((checkCameraCoverage ⟨⟨.fin 5, .fin 5⟩, ⟨.fin 100, .fin 100⟩⟩
      [⟨"c", ⟨.fin 5, .fin 5⟩, ⟨.fin 100, .fin 100⟩⟩]).statistics.map
        CoverageStatistics.coveragePercentage = some 0) ∧
    (0 : Int) ≠ 100 := by decide

set_option maxHeartbeats 2000000 in
/-- C5 (amended): for a valid target that is non-degenerate on both axes,
a single camera whose ranges equal the target's yields
`isSufficient = true` and `coveragePercentage = 100` (computed as
`round(100 × (totalCells − uncoveredCells) / totalCells)` with
`totalCells = max 0 ((distBoundaries−1)(lightBoundaries−1)) > 0`). -/
theorem selfCoverage_complete (spec : SoftwareCameraSpec) (cid : String)
    (hs : ValidSpec spec) (hid : cid ≠ "")
    (hd : spec.toQ.distanceRange.min < spec.toQ.distanceRange.max)
    (hl : spec.toQ.lightRange.min < spec.toQ.lightRange.max) :
    (checkCameraCoverage spec [⟨cid, spec.distanceRange, spec.lightRange⟩]).isSufficient
      = true ∧
    (checkCameraCoverage spec [⟨cid, spec.distanceRange, spec.lightRange⟩]).statistics.map
      CoverageStatistics.coveragePercentage = some 100 := by
  have hvc : ValidCameraList [⟨cid, spec.distanceRange, spec.lightRange⟩] := by
    refine ⟨fun x hx => ?_, List.nodup_singleton _⟩
    rw [List.mem_singleton] at hx
    rw [hx]
    exact ⟨hid, hs.1, hs.2⟩
  have hok := validateInputs_ok spec [⟨cid, spec.distanceRange, spec.lightRange⟩] hs hvc
  have hne : ([⟨cid, spec.distanceRange, spec.lightRange⟩] : List HardwareCamera) ≠ [] := by
    simp
  have hcov : CoversTarget spec [⟨cid, spec.distanceRange, spec.lightRange⟩] := by
    intro d l h1 h2 h3 h4
    refine ⟨⟨cid, spec.distanceRange, spec.lightRange⟩, List.mem_singleton.mpr rfl, ?_⟩
    simp only [cameraCoversPoint, HardwareCamera.toQ, Bool.and_eq_true,
      decide_eq_true_eq, ge_iff_le]
    exact ⟨⟨⟨h1, h2⟩, h3⟩, h4⟩
  have hscan := scanOf_eq_nil_of_covers spec _ hcov
  have hres : checkCameraCoverage spec [⟨cid, spec.distanceRange, spec.lightRange⟩] =
      ⟨true, .coverageComplete 1, none,
        some (statsOf spec [⟨cid, spec.distanceRange, spec.lightRange⟩])⟩ := by
    rw [checkCameraCoverage_of_ok hok hne, gridScanResult_eq, if_pos (by rw [hscan]; rfl)]
    rfl
  rw [hres]
  refine ⟨rfl, ?_⟩
  show some ((statsOf spec [⟨cid, spec.distanceRange, spec.lightRange⟩]).coveragePercentage)
    = some 100
  congr 1
  unfold statsOf
  rw [hscan]
  simp only [List.length_nil]
  exact coveragePercentage_of_no_uncovered
    (two_le_distBoundariesOf spec _ hd) (two_le_lightBoundariesOf spec _ hl)

/-- C5 witness: self-coverage applied at a concrete non-degenerate target. -/
theorem selfCoverage_complete_witness :
    (checkCameraCoverage ⟨⟨.fin 0, .fin 1⟩, ⟨.fin 0, .fin 1⟩⟩
      [⟨"a", ⟨.fin 0, .fin 1⟩, ⟨.fin 0, .fin 1⟩⟩]).isSufficient = true ∧
    (checkCameraCoverage ⟨⟨.fin 0, .fin 1⟩, ⟨.fin 0, .fin 1⟩⟩
      [⟨"a", ⟨.fin 0, .fin 1⟩, ⟨.fin 0, .fin 1⟩⟩]).statistics.map
        CoverageStatistics.coveragePercentage = some 100 :=
  selfCoverage_complete _ "a" (by decide) (by decide) (by decide) (by decide)

/-- C6, counterexample to the claim as stated: the input has a malformed
camera range (`[1,0]`, min > max), but because the same camera also has an
empty id and the id check runs first, the surfaced message is the
invalid-id error, which names no range. -/
theorem emptyId_error_masks_range_error :
    (checkCameraCoverage ⟨⟨.fin 0, .fin 1⟩, ⟨.fin 0, .fin 1⟩⟩
      [⟨"", ⟨.fin 1, .fin 0⟩, ⟨.fin 0, .fin 1⟩⟩]).message =
        .validationFailure (.invalidId 0) ∧
    (ValidationError.invalidId 0).rangeName = none ∧
    rangeOk ⟨.fin 1, .fin 0⟩ = false := by decide

/-- C6 (amended): if some validated range (target or camera) is malformed
(non-finite endpoint or min > max) and every camera id is non-empty, the
check returns — as a value, never an exception — a result with
`isSufficient = false` whose message is a validation error naming one of
the malformed ranges. -/
theorem malformed_range_surfaced (spec : SoftwareCameraSpec) (cams : List HardwareCamera)
    (hids : ∀ c ∈ cams, c.id ≠ "")
    (hbad : ∃ p ∈ rangeChecklist spec cams, rangeOk p.2 = false) :
    (checkCameraCoverage spec cams).isSufficient = false ∧
    ∃ e, (checkCameraCoverage spec cams).message = .validationFailure e ∧
      ∃ nm r, e.rangeName = some nm ∧ (nm, r) ∈ rangeChecklist spec cams ∧
        rangeOk r = false := by
  obtain ⟨e, he, hrest⟩ := validation_error_names_range spec cams hids hbad
  rw [checkCameraCoverage_error he]
  exact ⟨rfl, e, rfl, hrest⟩

/-- C6 witness: a target whose distance range has min > max. -/
theorem malformed_range_surfaced_witness :
    (checkCameraCoverage ⟨⟨.fin 1, .fin 0⟩, ⟨.fin 0, .fin 1⟩⟩ []).isSufficient = false ∧
    ∃ e, (checkCameraCoverage ⟨⟨.fin 1, .fin 0⟩, ⟨.fin 0, .fin 1⟩⟩ []).message =
        .validationFailure e ∧
      ∃ nm r, e.rangeName = some nm ∧
        (nm, r) ∈ rangeChecklist ⟨⟨.fin 1, .fin 0⟩, ⟨.fin 0, .fin 1⟩⟩ [] ∧
        rangeOk r = false :=
  malformed_range_surfaced _ _ (by decide) (by decide)

/-- C7, counterexample to the claim as stated: two cameras share the id
"dup", but the first camera's malformed distance range `[1,0]` is reported
instead (per-camera range validation runs before the duplicate check), so
the message does not report the duplicate ids. -/
theorem range_error_masks_duplicate_ids :
    ¬ (([⟨"dup", ⟨.fin 1, .fin 0⟩, ⟨.fin 0, .fin 1⟩⟩,
         ⟨"dup", ⟨.fin 0, .fin 1⟩, ⟨.fin 0, .fin 1⟩⟩] : List HardwareCamera).map
          HardwareCamera.id).Nodup ∧
    ¬ ∃ dups, (checkCameraCoverage ⟨⟨.fin 0, .fin 1⟩, ⟨.fin 0, .fin 1⟩⟩
      [⟨"dup", ⟨.fin 1, .fin 0⟩, ⟨.fin 0, .fin 1⟩⟩,
       ⟨"dup", ⟨.fin 0, .fin 1⟩, ⟨.fin 0, .fin 1⟩⟩]).message =
        .validationFailure (.duplicateIdsFound dups) := by
  constructor
  · decide
  · rintro ⟨dups, h⟩
    rw [show (checkCameraCoverage ⟨⟨.fin 0, .fin 1⟩, ⟨.fin 0, .fin 1⟩⟩
      [⟨"dup", ⟨.fin 1, .fin 0⟩, ⟨.fin 0, .fin 1⟩⟩,
       ⟨"dup", ⟨.fin 0, .fin 1⟩, ⟨.fin 0, .fin 1⟩⟩]).message =
        .validationFailure (.minGreaterThanMax (cameraDistName "dup") (.fin 1) (.fin 0))
      from by decide] at h
    simp at h

/-- C7 (amended): for a valid target and individually valid cameras, a
repeated id always yields the validation-error result: `isSufficient =
false` and a message reporting the (non-empty) duplicate-id list,
regardless of the cameras' geometry. -/
theorem duplicate_ids_rejected (spec : SoftwareCameraSpec) (cams : List HardwareCamera)
    (hs : ValidSpec spec) (hall : ∀ c ∈ cams, ValidCamera c)
    (hdup : ¬ (cams.map HardwareCamera.id).Nodup) :
    (checkCameraCoverage spec cams).isSufficient = false ∧
    (checkCameraCoverage spec cams).message =
      .validationFailure (.duplicateIdsFound (findDuplicateIds (cams.map HardwareCamera.id))) ∧
    findDuplicateIds (cams.map HardwareCamera.id) ≠ [] := by
  have herr : validateInputs spec cams =
      .error (.duplicateIdsFound (findDuplicateIds (cams.map HardwareCamera.id))) := by
    unfold validateInputs
    rw [validateSoftwareCameraSpec_ok spec hs]
    exact validateHardwareCameras_duplicate cams hall hdup
  rw [checkCameraCoverage_error herr]
  exact ⟨rfl, rfl, findDuplicateIds_ne_nil hdup⟩

/-- C7 witness: two geometrically covering cameras sharing an id. -/
theorem duplicate_ids_rejected_witness :
    (checkCameraCoverage ⟨⟨.fin 0, .fin 1⟩, ⟨.fin 0, .fin 1⟩⟩
      [⟨"d", ⟨.fin 0, .fin 1⟩, ⟨.fin 0, .fin 1⟩⟩,
       ⟨"d", ⟨.fin 0, .fin 1⟩, ⟨.fin 0, .fin 1⟩⟩]).isSufficient = false ∧
    (checkCameraCoverage ⟨⟨.fin 0, .fin 1⟩, ⟨.fin 0, .fin 1⟩⟩
      [⟨"d", ⟨.fin 0, .fin 1⟩, ⟨.fin 0, .fin 1⟩⟩,
       ⟨"d", ⟨.fin 0, .fin 1⟩, ⟨.fin 0, .fin 1⟩⟩]).message =
      .validationFailure (.duplicateIdsFound (findDuplicateIds
        (([⟨"d", ⟨.fin 0, .fin 1⟩, ⟨.fin 0, .fin 1⟩⟩,
           ⟨"d", ⟨.fin 0, .fin 1⟩, ⟨.fin 0, .fin 1⟩⟩] : List HardwareCamera).map
            HardwareCamera.id))) ∧
    findDuplicateIds (([⟨"d", ⟨.fin 0, .fin 1⟩, ⟨.fin 0, .fin 1⟩⟩,
        ⟨"d", ⟨.fin 0, .fin 1⟩, ⟨.fin 0, .fin 1⟩⟩] : List HardwareCamera).map
          HardwareCamera.id) ≠ [] :=
  duplicate_ids_rejected _ _ (by decide) (by decide) (by decide)

/-- C8: at target distance `[1,20]`, camera A `[0,8]`, camera B `[12,30]`
(both spanning light `[0,2000] ⊇ [100,1000]`), the check reports
`isSufficient = false` and some uncovered region whose distance range lies
in the gap between 8 and 12 (endpoints inclusive: the recorded cell is
exactly `[8,12]`). -/
theorem gap_between_cameras_detected :
    (checkCameraCoverage ⟨⟨.fin 1, .fin 20⟩, ⟨.fin 100, .fin 1000⟩⟩
      [⟨"close-range", ⟨.fin 0, .fin 8⟩, ⟨.fin 0, .fin 2000⟩⟩,
       ⟨"far-range", ⟨.fin 12, .fin 30⟩, ⟨.fin 0, .fin 2000⟩⟩]).isSufficient = false ∧
    ∃ reg ∈ ((checkCameraCoverage ⟨⟨.fin 1, .fin 20⟩, ⟨.fin 100, .fin 1000⟩⟩
      [⟨"close-range", ⟨.fin 0, .fin 8⟩, ⟨.fin 0, .fin 2000⟩⟩,
       ⟨"far-range", ⟨.fin 12, .fin 30⟩, ⟨.fin 0, .fin 2000⟩⟩]).uncoveredRegions.getD []),
      (8 : ℚ) ≤ reg.distanceRange.min.toQ ∧ reg.distanceRange.max.toQ ≤ 12 := by decide

/-- C9: two cameras abutting at any point `m` of the target's distance
range, both spanning the target's full light range, always yield
`isSufficient = true` — touching ranges count as covering because the
containment comparisons are inclusive. -/
theorem abutting_cameras_sufficient (a m b lc ld : ℚ) (idA idB : String)
    (hA : idA ≠ "") (hB : idB ≠ "") (hAB : idA ≠ idB)
    (h1 : a ≤ m) (h2 : m ≤ b) (h3 : lc ≤ ld) :
    (checkCameraCoverage ⟨⟨.fin a, .fin b⟩, ⟨.fin lc, .fin ld⟩⟩
      [⟨idA, ⟨.fin a, .fin m⟩, ⟨.fin lc, .fin ld⟩⟩,
       ⟨idB, ⟨.fin m, .fin b⟩, ⟨.fin lc, .fin ld⟩⟩]).isSufficient = true := by
  have hs : ValidSpec ⟨⟨.fin a, .fin b⟩, ⟨.fin lc, .fin ld⟩⟩ :=
    ⟨rangeOk_fin (h1.trans h2), rangeOk_fin h3⟩
  have hvc : ValidCameraList
      [⟨idA, ⟨.fin a, .fin m⟩, ⟨.fin lc, .fin ld⟩⟩,
       ⟨idB, ⟨.fin m, .fin b⟩, ⟨.fin lc, .fin ld⟩⟩] := by
    constructor
    · intro c hc
      rcases List.mem_cons.mp hc with rfl | hc
      · exact ⟨hA, rangeOk_fin h1, rangeOk_fin h3⟩
      rcases List.mem_cons.mp hc with rfl | hc
      · exact ⟨hB, rangeOk_fin h2, rangeOk_fin h3⟩
      · exact absurd hc (List.not_mem_nil c)
    · simp [hAB]
  rw [checkCameraCoverage_isSufficient_iff_scan _ _
    (validateInputs_ok _ _ hs hvc) (by simp)]
  rcases eq_or_lt_of_le (show (a : ℚ) ≤ b from h1.trans h2) with hdeg | hd
  · exact scanOf_degenerate_dist _ _ hdeg
  rcases eq_or_lt_of_le h3 with hdeg | hl
  · exact scanOf_degenerate_light _ _ hdeg
  apply scanOf_eq_nil_of_covers
  intro d l hd1 hd2 hl1 hl2
  rcases le_total d m with hdm | hmd
  · refine ⟨⟨idA, ⟨.fin a, .fin m⟩, ⟨.fin lc, .fin ld⟩⟩, List.mem_cons_self _ _, ?_⟩
    simp only [cameraCoversPoint, HardwareCamera.toQ, Range.toQ, JsNum.toQ,
      Bool.and_eq_true, decide_eq_true_eq, ge_iff_le]
    exact ⟨⟨⟨hd1, hdm⟩, hl1⟩, hl2⟩
  · refine ⟨⟨idB, ⟨.fin m, .fin b⟩, ⟨.fin lc, .fin ld⟩⟩,
      List.mem_cons.mpr (Or.inr (List.mem_cons_self _ _)), ?_⟩
    simp only [cameraCoversPoint, HardwareCamera.toQ, Range.toQ, JsNum.toQ,
      Bool.and_eq_true, decide_eq_true_eq, ge_iff_le]
    exact ⟨⟨⟨hmd, hd2⟩, hl1⟩, hl2⟩

/-- C9 witness: the abutting-camera law at the spec's example input
(target distance `[0,20]`, cameras split at 10, light `[0,100]`). -/
theorem abutting_cameras_sufficient_witness :
    (checkCameraCoverage ⟨⟨.fin 0, .fin 20⟩, ⟨.fin 0, .fin 100⟩⟩
      [⟨"A", ⟨.fin 0, .fin 10⟩, ⟨.fin 0, .fin 100⟩⟩,
       ⟨"B", ⟨.fin 10, .fin 20⟩, ⟨.fin 0, .fin 100⟩⟩]).isSufficient = true :=
  abutting_cameras_sufficient 0 10 20 0 100 "A" "B" (by decide) (by decide) (by decide)
    (by decide) (by decide) (by decide)
